import Mathlib

/-!
Verification of the simulation core and app layer of the
Instant-Payments Readiness & Impact Simulator.

The visible source of the repository is the presentation layer
`src/app/streamlit_app.py`; the simulation core `src.sim_core`
(`generate_synth`, `simulate_vop`, `scan_vop`, `simulate_fraud`,
`scan_fraud`) is imported there but its source is not in the
repository snapshot, so the core is modelled from the specification
(spec.md sections 3, 4, 7, 8).  Real-valued quantities are modelled
as rationals.
-/

namespace IPSim

/-- Error taxonomy from spec section 7: `InvalidParameter`
(out-of-domain threshold, non-positive N, empty or malformed grid)
and `EmptyPopulation`. -/
inductive SimError where
  | invalidParameter
  | emptyPopulation
deriving DecidableEq, Repr

/-- One row of the population, per spec section 3 (Transaction). -/
structure Transaction where
  transaction_id : Nat
  amount : ℚ
  identity_match_score : ℚ
  fraud_probability : ℚ
  is_true_fraud : Bool
  base_latency : ℚ
deriving DecidableEq, Repr

/-- A population is an ordered sequence of transactions. -/
abbrev Population := List Transaction

/-- Modelled from the spec: a deterministic pseudo-random mixing
function standing in for the pseudo-random source of the unseen generator
(`src.sim_core.generate_synth` internals are not in the repository;
spec section 9 prescribes seed-derived per-row sampling). -/
def mix (x : Nat) : Nat :=
  let a := (x * 6364136223846793005 + 1442695040888963407) % 2 ^ 64
  let b := ((a ^^^ (a >>> 33)) * 2862933555777941757) % 2 ^ 64
  (b ^^^ (b >>> 29)) % 2 ^ 64

/-- Modelled from the spec: a unit-interval sample derived from
`(seed, row_index, field_id)` as spec section 9 prescribes; the value
is always in `[0, 999/1000] ⊆ [0,1]`. -/
def unitSample (seed i field : Nat) : ℚ :=
  (((mix (seed * 1000003 + i * 4 + field)) % 1000 : Nat) : ℚ) / 1000

/-- Modelled from the spec: one synthesized transaction
(spec section 3 data model and section 4.1).  The marginal
distributions are a fixed documented implementation choice
(spec section 9 leaves them open); `is_true_fraud` uses the fixed
`fraud_probability > 0.90` cut; `amount ≥ 1 > 0`;
`base_latency ≥ 1/10 > 0`; `transaction_id` is sequential. -/
def mkTransaction (seed i : Nat) : Transaction :=
  let fp := unitSample seed i 1
  { transaction_id := i
  , amount := 1 + 100 * unitSample seed i 2
  , identity_match_score := unitSample seed i 0
  , fraud_probability := fp
  , is_true_fraud := decide ((9 : ℚ)/10 < fp)
  , base_latency := 1/10 + unitSample seed i 3 }

/-- Modelled from the spec: `generate(n, seed) -> Population`
(spec section 4.1, standing in for the unseen
`src.sim_core.generate_synth`).  Fails with `InvalidParameter` when
`n <= 0`; otherwise returns the deterministic population of `n`
rows. -/
def generate (n seed : Nat) : Except SimError Population :=
  if n = 0 then .error .invalidParameter
  else .ok ((List.range n).map (mkTransaction seed))

/-- VoP KPI snapshot, spec section 4.2. -/
structure VopKPI where
  conversion_rate : ℚ
  latency_p95 : ℚ
deriving DecidableEq, Repr

/-- Fraud KPI snapshot, spec section 4.3. -/
structure FraudKPI where
  manual_review_rate : ℚ
  risk_exposure_eur : ℚ
deriving DecidableEq, Repr

/-- Insertion step of an insertion sort on rationals. -/
def insertSorted (x : ℚ) : List ℚ → List ℚ
  | [] => [x]
  | y :: ys => if x ≤ y then x :: y :: ys else y :: insertSorted x ys

/-- Insertion sort on rationals (ascending). -/
def sortQ (xs : List ℚ) : List ℚ := xs.foldr insertSorted []

/-- Modelled from the spec: nearest-rank 95th percentile of a list of
values (spec section 4.2 latency_p95; the exact percentile convention
is a fixed documented implementation choice). -/
def percentile95 (xs : List ℚ) : ℚ :=
  (sortQ xs).getD ((95 * xs.length + 99) / 100 - 1) 0

/-- Modelled from the spec: fixed extra-verification latency penalty
(spec section 4.2; the constant is a documented implementation
choice, spec section 9 leaves it open). -/
def vopPenalty : ℚ := 3 / 10

/-- Modelled from the spec: effective latency of one transaction at a
VoP threshold — transactions that do not clear the identity-match cut
undergo stricter verification and incur the fixed penalty
(spec section 4.2). -/
def effLatency (threshold : ℚ) (r : Transaction) : ℚ :=
  if r.identity_match_score < threshold then r.base_latency + vopPenalty
  else r.base_latency

/-- Modelled from the spec: the VoP KPI body on a validated input
(spec section 4.2): `conversion_rate` is the percentage of the
population with `identity_match_score >= threshold`, `latency_p95`
the 95th percentile of effective latency. -/
def vopKpi (pop : Population) (threshold : ℚ) : VopKPI :=
  { conversion_rate :=
      100 * ((pop.countP (fun r => decide (threshold ≤ r.identity_match_score))) : ℚ)
        / pop.length
  , latency_p95 := percentile95 (pop.map (effLatency threshold)) }

/-- Modelled from the spec:
`evaluate_vop(population, threshold) -> {conversion_rate, latency_p95}`
(spec section 4.2, standing in for the unseen
`src.sim_core.simulate_vop`).  Fails with `InvalidParameter` if the
threshold is outside `[0,1]` or the population is empty; never
clamps. -/
def evaluate_vop (pop : Population) (threshold : ℚ) : Except SimError VopKPI :=
  if threshold < 0 ∨ 1 < threshold then .error .invalidParameter
  else if pop.isEmpty then .error .invalidParameter
  else .ok (vopKpi pop threshold)

/-- Modelled from the spec: the fraud KPI body on a validated input
(spec section 4.3): a transaction is flagged iff
`fraud_probability >= threshold`; `manual_review_rate` is the
percentage flagged; `risk_exposure_eur` sums `amount` over true-fraud
transactions that are NOT flagged. -/
def fraudKpi (pop : Population) (threshold : ℚ) : FraudKPI :=
  { manual_review_rate :=
      100 * ((pop.countP (fun r => decide (threshold ≤ r.fraud_probability))) : ℚ)
        / pop.length
  , risk_exposure_eur :=
      ((pop.filter (fun r => r.is_true_fraud && !(decide (threshold ≤ r.fraud_probability)))).map
        (fun r => r.amount)).sum }

/-- Modelled from the spec:
`evaluate_fraud(population, threshold) -> {manual_review_rate, risk_exposure_eur}`
(spec section 4.3, standing in for the unseen
`src.sim_core.simulate_fraud`).  Fails with `InvalidParameter` iff
the threshold is outside `[0,1]`; never clamps. -/
def evaluate_fraud (pop : Population) (threshold : ℚ) : Except SimError FraudKPI :=
  if threshold < 0 ∨ 1 < threshold then .error .invalidParameter
  else .ok (fraudKpi pop threshold)

/-- One row of the VoP curve table (column names as in the
`vop_curves` dataframe of the app, `src/app/streamlit_app.py` line 138). -/
structure VopRow where
  vop_threshold : ℚ
  conversion_rate : ℚ
  latency_p95 : ℚ
deriving DecidableEq, Repr

/-- One row of the Fraud curve table (column names as in the
`fraud_curves` dataframe of the app, `src/app/streamlit_app.py` line 160). -/
structure FraudRow where
  fraud_threshold : ℚ
  manual_review_rate : ℚ
  risk_exposure_eur : ℚ
deriving DecidableEq, Repr

/-- Modelled from the spec: `scan_vop(population, grid) -> CurveTable`
(spec section 4.4, standing in for the unseen
`src.sim_core.scan_vop`).  Fails with `InvalidParameter` if the grid
is empty or contains out-of-domain values; otherwise invokes the VoP
evaluator per grid value in grid order, delegating per-point
failures. -/
def scan_vop (pop : Population) (grid : List ℚ) : Except SimError (List VopRow) :=
  if grid.isEmpty then .error .invalidParameter
  else if grid.any (fun v => decide (v < 0) || decide (1 < v)) then .error .invalidParameter
  else grid.mapM (fun v =>
    (evaluate_vop pop v).map (fun k => ⟨v, k.conversion_rate, k.latency_p95⟩))

/-- Modelled from the spec: `scan_fraud(population, grid) -> CurveTable`
(spec section 4.4, standing in for the unseen
`src.sim_core.scan_fraud`).  Fails with `InvalidParameter` if the
grid is empty or contains out-of-domain values; otherwise invokes the
fraud evaluator per grid value in grid order. -/
def scan_fraud (pop : Population) (grid : List ℚ) : Except SimError (List FraudRow) :=
  if grid.isEmpty then .error .invalidParameter
  else if grid.any (fun v => decide (v < 0) || decide (1 < v)) then .error .invalidParameter
  else grid.mapM (fun v =>
    (evaluate_fraud pop v).map (fun k => ⟨v, k.manual_review_rate, k.risk_exposure_eur⟩))

/-- `np.arange(start, stop, step)` over rationals: the values
`start + i * step` for `i = 0, …, ⌈(stop − start)/step⌉ − 1`
(`src/app/streamlit_app.py` lines 74–75 build the scan grids with
`np.arange`). -/
def arange (start stop step : ℚ) : List ℚ :=
  (List.range (⌈(stop - start) / step⌉.toNat)).map (fun i => start + i * step)

/-- The VoP scan grid of the app, `np.arange(0.50, 0.95, 0.05)`
(`src/app/streamlit_app.py` line 74). -/
def vop_scan_grid : List ℚ := arange (1/2) (19/20) (1/20)

/-- The fraud scan grid of the app, `np.arange(0.20, 0.90, 0.10)`
(`src/app/streamlit_app.py` line 75). -/
def fraud_scan_grid : List ℚ := arange (1/5) (9/10) (1/10)

/-- The Python `.astype(int)` conversion of a boolean column entry
(`src/app/streamlit_app.py` line 87). -/
def astype_int (b : Bool) : Int := if b then 1 else 0

/-- The app-level dataframe: the population rows plus the
`is_true_fraud` column as the app stores it — an integer 0/1 column
that may be absent from the output of the core
(`src/app/streamlit_app.py` lines 82–88). -/
structure Frame where
  rows : Population
  trueFraudCol : Option (List Int)
deriving DecidableEq, Repr

/-- The column-repair step of `get_data`
(`src/app/streamlit_app.py` lines 86–87): if `"is_true_fraud"` is not
among the columns of the dataframe, derive it as
`(df["fraud_probability"] > 0.90).astype(int)`; otherwise leave the
dataframe unchanged. -/
def ensureTrueFraud (df : Frame) : Frame :=
  match df.trueFraudCol with
  | some _ => df
  | none =>
    { df with
      trueFraudCol :=
        some (df.rows.map (fun r => astype_int (decide ((9 : ℚ)/10 < r.fraud_probability)))) }

/-- Modelled from the spec: one dashboard session reading the same
population many times (spec section 3 lifecycle, section 5): both
single-point evaluators and both scanners are applied to one
population, and the population available to the caller afterwards is
the final component of the tuple. -/
def readSession (pop : Population) (tv tf : ℚ) (gv gf : List ℚ) :
    Except SimError VopKPI × Except SimError FraudKPI ×
      Except SimError (List VopRow) × Except SimError (List FraudRow) × Population :=
  (evaluate_vop pop tv, evaluate_fraud pop tf, scan_vop pop gv, scan_fraud pop gf, pop)

/-- A concrete transaction used to instantiate witnesses. -/
def txW : Transaction :=
  { transaction_id := 0
  , amount := 5
  , identity_match_score := 1/2
  , fraud_probability := 19/20
  , is_true_fraud := true
  , base_latency := 1 }

/-- The concrete one-row population `generate 1 0` returns. -/
def popW1 : Population := (List.range 1).map (mkTransaction 0)

/-- The concrete two-row population `generate 2 0` returns. -/
def popW2 : Population := (List.range 2).map (mkTransaction 0)

/-! ### Helper lemmas -/

/-- The VoP scan grid evaluates to the nine multiples of `1/20` from
`1/2` to `9/10`. -/
theorem vop_scan_grid_eq :
    vop_scan_grid = [1/2, 11/20, 3/5, 13/20, 7/10, 3/4, 4/5, 17/20, 9/10] := by
  rw [vop_scan_grid, arange]
  have h : (⌈(((19:ℚ)/20 - 1/2) / (1/20))⌉) = 9 := by norm_num
  have h2 : (⌈(((19:ℚ)/20 - 1/2) / (1/20))⌉.toNat) = 9 := by rw [h]; rfl
  rw [h2, show List.range 9 = [0,1,2,3,4,5,6,7,8] from rfl]
  norm_num

/-- The fraud scan grid evaluates to the seven multiples of `1/10`
from `1/5` to `4/5`. -/
theorem fraud_scan_grid_eq :
    fraud_scan_grid = [1/5, 3/10, 2/5, 1/2, 3/5, 7/10, 4/5] := by
  rw [fraud_scan_grid, arange]
  have h : (⌈(((9:ℚ)/10 - 1/5) / (1/10))⌉) = 7 := by norm_num
  have h2 : (⌈(((9:ℚ)/10 - 1/5) / (1/10))⌉.toNat) = 7 := by rw [h]; rfl
  rw [h2, show List.range 7 = [0,1,2,3,4,5,6] from rfl]
  norm_num

/-- The VoP scan grid is non-empty, strictly ascending, in-domain,
and avoids the maximum slider value `19/20`. -/
theorem vop_scan_grid_props :
    vop_scan_grid ≠ [] ∧ vop_scan_grid.Pairwise (· < ·) ∧
    (∀ v ∈ vop_scan_grid, 0 ≤ v ∧ v ≤ 1) ∧ (∀ v ∈ vop_scan_grid, v ≠ 19/20) := by
  rw [vop_scan_grid_eq]
  refine ⟨by simp, ?_, ?_, ?_⟩
  · norm_num [List.pairwise_cons]
  · intro v hv
    fin_cases hv <;> norm_num
  · intro v hv
    fin_cases hv <;> norm_num

/-- The fraud scan grid is non-empty, strictly ascending, in-domain,
and avoids the maximum slider value `9/10`. -/
theorem fraud_scan_grid_props :
    fraud_scan_grid ≠ [] ∧ fraud_scan_grid.Pairwise (· < ·) ∧
    (∀ v ∈ fraud_scan_grid, 0 ≤ v ∧ v ≤ 1) ∧ (∀ v ∈ fraud_scan_grid, v ≠ 9/10) := by
  rw [fraud_scan_grid_eq]
  refine ⟨by simp, ?_, ?_, ?_⟩
  · norm_num [List.pairwise_cons]
  · intro v hv
    fin_cases hv <;> norm_num
  · intro v hv
    fin_cases hv <;> norm_num

/-- The unit sample is nonnegative. -/
theorem unitSample_nonneg (seed i field : Nat) : 0 ≤ unitSample seed i field := by
  unfold unitSample
  positivity

/-- The unit sample is at most `999/1000`. -/
theorem unitSample_le (seed i field : Nat) : unitSample seed i field ≤ 999/1000 := by
  unfold unitSample
  have h : (mix (seed * 1000003 + i * 4 + field)) % 1000 ≤ 999 :=
    Nat.lt_succ_iff.mp (Nat.mod_lt _ (by norm_num))
  have hq : (((mix (seed * 1000003 + i * 4 + field)) % 1000 : Nat) : ℚ) ≤ 999 := by
    exact_mod_cast h
  linarith

/-- The unit sample is at most `1`. -/
theorem unitSample_le_one (seed i field : Nat) : unitSample seed i field ≤ 1 :=
  le_trans (unitSample_le seed i field) (by norm_num)

/-- On a positive row count, `generate` succeeds with the mapped range. -/
theorem generate_eq_ok {n : Nat} (seed : Nat) (hn : n ≠ 0) :
    generate n seed = .ok ((List.range n).map (mkTransaction seed)) := by
  simp [generate, hn]

/-- Every row of a generated population is `mkTransaction seed i` for
some index `i < n`. -/
theorem mem_generate {n seed : Nat} {pop : Population}
    (h : generate n seed = .ok pop) {r : Transaction} (hr : r ∈ pop) :
    ∃ i, i < n ∧ r = mkTransaction seed i := by
  unfold generate at h
  by_cases hn : n = 0
  · simp [hn] at h
  · simp [hn] at h
    subst h
    rcases List.mem_map.mp hr with ⟨i, hi, hmk⟩
    exact ⟨i, List.mem_range.mp hi, hmk.symm⟩

/-- If a function succeeds with `g v` on every grid element, then
`mapM` over the grid succeeds with the mapped list. -/
theorem mapM_eq_ok {α β : Type} {g : α → β} {f : α → Except SimError β}
    (l : List α) (h : ∀ v ∈ l, f v = .ok (g v)) :
    l.mapM f = .ok (l.map g) := by
  induction l with
  | nil => rfl
  | cons a l ih =>
    rw [List.mapM_cons, h a (List.mem_cons_self a l),
      ih (fun v hv => h v (List.mem_cons_of_mem a hv))]
    rfl

/-- A validated threshold on a non-empty population makes the VoP
evaluator succeed with the KPI body. -/
theorem evaluate_vop_eq_ok (pop : Population) (v : ℚ)
    (hpop : pop ≠ []) (h0 : 0 ≤ v) (h1 : v ≤ 1) :
    evaluate_vop pop v = .ok (vopKpi pop v) := by
  simp [evaluate_vop, List.isEmpty_iff, hpop, not_lt.mpr h0, not_lt.mpr h1]

/-- A validated threshold makes the fraud evaluator succeed with the
KPI body. -/
theorem evaluate_fraud_eq_ok (pop : Population) (v : ℚ)
    (h0 : 0 ≤ v) (h1 : v ≤ 1) :
    evaluate_fraud pop v = .ok (fraudKpi pop v) := by
  simp [evaluate_fraud, not_lt.mpr h0, not_lt.mpr h1]

/-- On a non-empty grid of in-domain values and a non-empty
population, `scan_vop` succeeds with one row per grid value. -/
theorem scan_vop_eq_ok (pop : Population) (grid : List ℚ)
    (hpop : pop ≠ []) (hne : grid ≠ [])
    (hdom : ∀ v ∈ grid, 0 ≤ v ∧ v ≤ 1) :
    scan_vop pop grid =
      .ok (grid.map (fun v =>
        ⟨v, (vopKpi pop v).conversion_rate, (vopKpi pop v).latency_p95⟩)) := by
  have hany : grid.any (fun v => decide (v < 0) || decide (1 < v)) = false := by
    rw [List.any_eq_false]
    intro v hv
    simp only [Bool.or_eq_true, decide_eq_true_eq, not_or, not_lt]
    exact ⟨(hdom v hv).1, (hdom v hv).2⟩
  have hmap : ∀ v ∈ grid,
      (evaluate_vop pop v).map
          (fun k => (⟨v, k.conversion_rate, k.latency_p95⟩ : VopRow)) =
        .ok (⟨v, (vopKpi pop v).conversion_rate, (vopKpi pop v).latency_p95⟩ : VopRow) := by
    intro v hv
    rw [evaluate_vop_eq_ok pop v hpop (hdom v hv).1 (hdom v hv).2]
    rfl
  simp only [scan_vop, List.isEmpty_iff, hne, if_false, hany, Bool.false_eq_true]
  exact mapM_eq_ok grid hmap

/-- On a non-empty grid of in-domain values, `scan_fraud` succeeds
with one row per grid value. -/
theorem scan_fraud_eq_ok (pop : Population) (grid : List ℚ)
    (hne : grid ≠ [])
    (hdom : ∀ v ∈ grid, 0 ≤ v ∧ v ≤ 1) :
    scan_fraud pop grid =
      .ok (grid.map (fun v =>
        ⟨v, (fraudKpi pop v).manual_review_rate, (fraudKpi pop v).risk_exposure_eur⟩)) := by
  have hany : grid.any (fun v => decide (v < 0) || decide (1 < v)) = false := by
    rw [List.any_eq_false]
    intro v hv
    simp only [Bool.or_eq_true, decide_eq_true_eq, not_or, not_lt]
    exact ⟨(hdom v hv).1, (hdom v hv).2⟩
  have hmap : ∀ v ∈ grid,
      (evaluate_fraud pop v).map
          (fun k => (⟨v, k.manual_review_rate, k.risk_exposure_eur⟩ : FraudRow)) =
        .ok (⟨v, (fraudKpi pop v).manual_review_rate,
          (fraudKpi pop v).risk_exposure_eur⟩ : FraudRow) := by
    intro v hv
    rw [evaluate_fraud_eq_ok pop v (hdom v hv).1 (hdom v hv).2]
    rfl
  simp only [scan_fraud, List.isEmpty_iff, hne, if_false, hany, Bool.false_eq_true]
  exact mapM_eq_ok grid hmap

/-- Sums of a nonnegative field over a filter grow when the filter
predicate weakens pointwise. -/
theorem sum_map_filter_mono {f : Transaction → ℚ} {p q : Transaction → Bool}
    (l : List Transaction)
    (hf : ∀ x ∈ l, 0 ≤ f x)
    (hpq : ∀ x ∈ l, p x = true → q x = true) :
    ((l.filter p).map f).sum ≤ ((l.filter q).map f).sum := by
  induction l with
  | nil => simp
  | cons a l ih =>
    have hfl : ∀ x ∈ l, 0 ≤ f x := fun x hx => hf x (List.mem_cons_of_mem a hx)
    have hpql : ∀ x ∈ l, p x = true → q x = true :=
      fun x hx => hpq x (List.mem_cons_of_mem a hx)
    by_cases hpa : p a = true
    · have hqa : q a = true := hpq a (List.mem_cons_self a l) hpa
      simp only [List.filter_cons, hpa, hqa, if_true, List.map_cons, List.sum_cons]
      exact add_le_add_left (ih hfl hpql) _
    · have hfa : 0 ≤ f a := hf a (List.mem_cons_self a l)
      by_cases hqa : q a = true
      · simp only [List.filter_cons, hpa, hqa, if_true, if_false, List.map_cons,
          List.sum_cons, Bool.false_eq_true]
        calc ((l.filter p).map f).sum ≤ ((l.filter q).map f).sum := ih hfl hpql
          _ ≤ f a + ((l.filter q).map f).sum := le_add_of_nonneg_left hfa
      · simp only [List.filter_cons, hpa, hqa, if_false, Bool.false_eq_true]
        exact ih hfl hpql

/-- Field bounds of a synthesized transaction. -/
theorem mkTransaction_bounds (seed i : Nat) :
    0 ≤ (mkTransaction seed i).identity_match_score ∧
    (mkTransaction seed i).identity_match_score ≤ 1 ∧
    0 ≤ (mkTransaction seed i).fraud_probability ∧
    (mkTransaction seed i).fraud_probability ≤ 1 ∧
    0 < (mkTransaction seed i).amount ∧
    0 < (mkTransaction seed i).base_latency := by
  have h2 := unitSample_nonneg seed i 2
  have h3 := unitSample_nonneg seed i 3
  refine ⟨unitSample_nonneg seed i 0, unitSample_le_one seed i 0,
    unitSample_nonneg seed i 1, unitSample_le_one seed i 1, ?_, ?_⟩
  · show (0 : ℚ) < 1 + 100 * unitSample seed i 2
    linarith
  · show (0 : ℚ) < 1/10 + unitSample seed i 3
    linarith

/-- Inversion of a successful `Except` bind. -/
theorem except_bind_ok {α β : Type} {x : Except SimError α}
    {g : α → Except SimError β} {b : β}
    (h : x >>= g = .ok b) : ∃ a, x = .ok a ∧ g a = .ok b := by
  cases x with
  | error e => exact absurd h (fun hh => Except.noConfusion hh)
  | ok a => exact ⟨a, rfl, h⟩

/-- Inversion of a successful `Except` map. -/
theorem except_map_ok {α β : Type} {x : Except SimError α} {g : α → β} {b : β}
    (h : x.map g = .ok b) : ∃ a, x = .ok a ∧ g a = b := by
  cases x with
  | error e => exact absurd h (fun hh => Except.noConfusion hh)
  | ok a => exact ⟨a, rfl, Except.ok.inj h⟩

/-- Every element of a successful `mapM` result comes from a grid
element on which the per-point function succeeded. -/
theorem mapM_ok_mem {α β : Type} {f : α → Except SimError β} :
    ∀ {l : List α} {rows : List β}, l.mapM f = .ok rows →
      ∀ b ∈ rows, ∃ a ∈ l, f a = .ok b := by
  intro l
  induction l with
  | nil =>
    intro rows h b hb
    rw [List.mapM_nil] at h
    have hrows : ([] : List β) = rows := Except.ok.inj h
    subst hrows
    exact absurd hb (by simp)
  | cons a l ih =>
    intro rows h b hb
    rw [List.mapM_cons] at h
    rcases except_bind_ok h with ⟨b0, hfa, h2⟩
    rcases except_bind_ok h2 with ⟨tl, hml, h3⟩
    have hrows : b0 :: tl = rows := Except.ok.inj h3
    subst hrows
    rcases List.mem_cons.mp hb with hb | hb
    · exact ⟨a, List.mem_cons_self a l, hb ▸ hfa⟩
    · rcases ih hml b hb with ⟨a2, ha2, hfa2⟩
      exact ⟨a2, List.mem_cons_of_mem a ha2, hfa2⟩

/-! ### Claim theorems -/

/-- C7: `evaluate_vop` fails with an `InvalidParameter` error exactly
when the threshold lies outside `[0,1]` or the population is empty;
otherwise it succeeds, returning the KPIs computed at the given,
unclamped threshold. -/
theorem evaluate_vop_invalid_parameter_iff (pop : Population) (t : ℚ) :
    (evaluate_vop pop t = .error .invalidParameter ↔ (t < 0 ∨ 1 < t ∨ pop = [])) ∧
    (0 ≤ t → t ≤ 1 → pop ≠ [] → evaluate_vop pop t = .ok (vopKpi pop t)) := by
  constructor
  · constructor
    · intro h
      by_cases hd : t < 0 ∨ 1 < t
      · rcases hd with hd | hd
        · exact Or.inl hd
        · exact Or.inr (Or.inl hd)
      · by_cases hp : pop = []
        · exact Or.inr (Or.inr hp)
        · rw [evaluate_vop_eq_ok pop t hp (not_lt.mp (fun h0 => hd (Or.inl h0)))
            (not_lt.mp (fun h1 => hd (Or.inr h1)))] at h
          exact absurd h (by simp)
    · intro h
      rcases h with h | h | h
      · simp [evaluate_vop, h]
      · simp [evaluate_vop, h]
      · subst h
        by_cases hd : t < 0 ∨ 1 < t
        · simp [evaluate_vop, hd]
        · simp [evaluate_vop, hd, List.isEmpty]
  · intro h0 h1 hp
    exact evaluate_vop_eq_ok pop t hp h0 h1

/-- Witness for C7: at threshold `1/2` on a one-row population the
evaluator succeeds with the unclamped KPI body. -/
theorem evaluate_vop_invalid_parameter_iff_witness :
    evaluate_vop [txW] (1/2) = .ok (vopKpi [txW] (1/2)) :=
  (evaluate_vop_invalid_parameter_iff [txW] (1/2)).2 (by norm_num) (by norm_num)
    (by simp)

/-- C2: on any population satisfying the amount invariant and any two
in-domain thresholds `t1 < t2`, the fraud evaluator succeeds at both
and satisfies `manual_review_rate(t2) ≤ manual_review_rate(t1)` and
`risk_exposure_eur(t1) ≤ risk_exposure_eur(t2)` exactly. -/
theorem evaluate_fraud_monotone (pop : Population) (t1 t2 : ℚ)
    (h0 : 0 ≤ t1) (h1 : t2 ≤ 1) (hlt : t1 < t2)
    (hamt : ∀ r ∈ pop, 0 ≤ r.amount) :
    ∃ k1 k2, evaluate_fraud pop t1 = .ok k1 ∧ evaluate_fraud pop t2 = .ok k2 ∧
      k2.manual_review_rate ≤ k1.manual_review_rate ∧
      k1.risk_exposure_eur ≤ k2.risk_exposure_eur := by
  have h02 : 0 ≤ t2 := le_trans h0 hlt.le
  have h11 : t1 ≤ 1 := le_trans hlt.le h1
  refine ⟨fraudKpi pop t1, fraudKpi pop t2,
    evaluate_fraud_eq_ok pop t1 h0 h11, evaluate_fraud_eq_ok pop t2 h02 h1, ?_, ?_⟩
  · have hc : pop.countP (fun r => decide (t2 ≤ r.fraud_probability)) ≤
        pop.countP (fun r => decide (t1 ≤ r.fraud_probability)) := by
      apply List.countP_mono_left
      intro r _ hr
      simp only [decide_eq_true_eq] at hr ⊢
      exact le_trans hlt.le hr
    have hcq : ((pop.countP (fun r => decide (t2 ≤ r.fraud_probability))) : ℚ) ≤
        ((pop.countP (fun r => decide (t1 ≤ r.fraud_probability))) : ℚ) := by
      exact_mod_cast hc
    exact div_le_div_of_nonneg_right
      (mul_le_mul_of_nonneg_left hcq (by norm_num)) (Nat.cast_nonneg _)
  · apply sum_map_filter_mono pop hamt
    intro r _ hr
    simp only [Bool.and_eq_true, Bool.not_eq_true', decide_eq_false_iff_not, not_le] at hr ⊢
    exact ⟨hr.1, lt_of_lt_of_le hr.2 hlt.le⟩

/-- Witness for C2: thresholds `0 < 1` on a one-row population. -/
theorem evaluate_fraud_monotone_witness :
    ∃ k1 k2, evaluate_fraud [txW] 0 = .ok k1 ∧ evaluate_fraud [txW] 1 = .ok k2 ∧
      k2.manual_review_rate ≤ k1.manual_review_rate ∧
      k1.risk_exposure_eur ≤ k2.risk_exposure_eur :=
  evaluate_fraud_monotone [txW] 0 1 (by norm_num) (by norm_num) (by norm_num)
    (by intro r hr; rw [List.mem_singleton] at hr; subst hr; norm_num [txW])

/-- C3: two calls of `generate` with the same `(n, seed)` return
populations that are identical field-for-field in every transaction. -/
theorem generate_two_runs_identical (n seed : Nat) (p q : Population)
    (h1 : generate n seed = .ok p) (h2 : generate n seed = .ok q) :
    p = q ∧ ∀ i (hip : i < p.length) (hiq : i < q.length),
      (p.get ⟨i, hip⟩).transaction_id = (q.get ⟨i, hiq⟩).transaction_id ∧
      (p.get ⟨i, hip⟩).amount = (q.get ⟨i, hiq⟩).amount ∧
      (p.get ⟨i, hip⟩).identity_match_score = (q.get ⟨i, hiq⟩).identity_match_score ∧
      (p.get ⟨i, hip⟩).fraud_probability = (q.get ⟨i, hiq⟩).fraud_probability ∧
      (p.get ⟨i, hip⟩).is_true_fraud = (q.get ⟨i, hiq⟩).is_true_fraud ∧
      (p.get ⟨i, hip⟩).base_latency = (q.get ⟨i, hiq⟩).base_latency := by
  have hpq : p = q := by
    have h := h1.symm.trans h2
    exact Except.ok.inj h
  subst hpq
  exact ⟨rfl, fun i hip hiq => ⟨rfl, rfl, rfl, rfl, rfl, rfl⟩⟩

/-- Witness for C3: two runs of `generate 2 0` agree on the concrete
two-row population. -/
theorem generate_two_runs_identical_witness :
    popW2 = popW2 ∧ ∀ i (hip : i < popW2.length) (hiq : i < popW2.length),
      (popW2.get ⟨i, hip⟩).transaction_id = (popW2.get ⟨i, hiq⟩).transaction_id ∧
      (popW2.get ⟨i, hip⟩).amount = (popW2.get ⟨i, hiq⟩).amount ∧
      (popW2.get ⟨i, hip⟩).identity_match_score = (popW2.get ⟨i, hiq⟩).identity_match_score ∧
      (popW2.get ⟨i, hip⟩).fraud_probability = (popW2.get ⟨i, hiq⟩).fraud_probability ∧
      (popW2.get ⟨i, hip⟩).is_true_fraud = (popW2.get ⟨i, hiq⟩).is_true_fraud ∧
      (popW2.get ⟨i, hip⟩).base_latency = (popW2.get ⟨i, hiq⟩).base_latency :=
  generate_two_runs_identical 2 0 popW2 popW2 rfl rfl

/-- C4: on every non-empty generated population, the VoP evaluator at
threshold `0` reports `conversion_rate = 100`, and the fraud
evaluator at threshold `0` reports `manual_review_rate = 100` and
`risk_exposure_eur = 0`. -/
theorem boundary_behavior_at_zero (n seed : Nat) (hn : 0 < n) :
    ∃ pop, generate n seed = .ok pop ∧ pop ≠ [] ∧
      ∃ vk fk, evaluate_vop pop 0 = .ok vk ∧ evaluate_fraud pop 0 = .ok fk ∧
        vk.conversion_rate = 100 ∧ fk.manual_review_rate = 100 ∧
        fk.risk_exposure_eur = 0 := by
  have hgen := generate_eq_ok (n := n) seed hn.ne'
  set pop := (List.range n).map (mkTransaction seed) with hpop
  have hlen : pop.length = n := by simp [hpop]
  have hne : pop ≠ [] := List.ne_nil_of_length_pos (by rw [hlen]; exact hn)
  have hlenq : (pop.length : ℚ) ≠ 0 := by
    rw [hlen]
    exact_mod_cast hn.ne'
  have hscore : ∀ r ∈ pop, 0 ≤ r.identity_match_score := by
    intro r hr
    rcases mem_generate hgen hr with ⟨i, _, hmk⟩
    rw [hmk]
    exact (mkTransaction_bounds seed i).1
  have hfp : ∀ r ∈ pop, 0 ≤ r.fraud_probability := by
    intro r hr
    rcases mem_generate hgen hr with ⟨i, _, hmk⟩
    rw [hmk]
    exact (mkTransaction_bounds seed i).2.2.1
  refine ⟨pop, hgen, hne, vopKpi pop 0, fraudKpi pop 0,
    evaluate_vop_eq_ok pop 0 hne le_rfl (by norm_num),
    evaluate_fraud_eq_ok pop 0 le_rfl (by norm_num), ?_, ?_, ?_⟩
  · show 100 * ((pop.countP (fun r => decide ((0:ℚ) ≤ r.identity_match_score))) : ℚ)
        / pop.length = 100
    have hcount : pop.countP (fun r => decide ((0:ℚ) ≤ r.identity_match_score)) =
        pop.length :=
      List.countP_eq_length.mpr (fun r hr => decide_eq_true (hscore r hr))
    rw [hcount, mul_div_assoc, div_self hlenq, mul_one]
  · show 100 * ((pop.countP (fun r => decide ((0:ℚ) ≤ r.fraud_probability))) : ℚ)
        / pop.length = 100
    have hcount : pop.countP (fun r => decide ((0:ℚ) ≤ r.fraud_probability)) =
        pop.length :=
      List.countP_eq_length.mpr (fun r hr => decide_eq_true (hfp r hr))
    rw [hcount, mul_div_assoc, div_self hlenq, mul_one]
  · show ((pop.filter
        (fun r => r.is_true_fraud && !(decide ((0:ℚ) ≤ r.fraud_probability)))).map
        (fun r => r.amount)).sum = 0
    have hfilter : pop.filter
        (fun r => r.is_true_fraud && !(decide ((0:ℚ) ≤ r.fraud_probability))) = [] := by
      rw [List.filter_eq_nil_iff]
      intro r hr
      simp only [Bool.and_eq_true, Bool.not_eq_true', decide_eq_false_iff_not, not_le,
        not_and, not_lt]
      intro _
      exact hfp r hr
    rw [hfilter]
    rfl

/-- Witness for C4: the boundary behavior at `n = 1`, `seed = 0`. -/
theorem boundary_behavior_at_zero_witness :
    ∃ pop, generate 1 0 = .ok pop ∧ pop ≠ [] ∧
      ∃ vk fk, evaluate_vop pop 0 = .ok vk ∧ evaluate_fraud pop 0 = .ok fk ∧
        vk.conversion_rate = 100 ∧ fk.manual_review_rate = 100 ∧
        fk.risk_exposure_eur = 0 :=
  boundary_behavior_at_zero 1 0 (by norm_num)

/-- C5: every generated transaction carries
`is_true_fraud = (fraud_probability > 0.90)` with the fixed `0.90`
cut, and when the column is absent the caller derives it by the same
rule, stored as an integer `0`/`1` column. -/
theorem true_fraud_fixed_cut (n seed : Nat) (pop : Population) (df : Frame)
    (h : generate n seed = .ok pop) (hdf : df.trueFraudCol = none) :
    (∀ r ∈ pop, r.is_true_fraud = decide ((9:ℚ)/10 < r.fraud_probability)) ∧
    (ensureTrueFraud df).trueFraudCol =
      some (df.rows.map (fun r => if (9:ℚ)/10 < r.fraud_probability then 1 else 0)) ∧
    (∀ z ∈ ((ensureTrueFraud df).trueFraudCol.getD []), z = 0 ∨ z = 1) := by
  obtain ⟨rows, col⟩ := df
  simp only at hdf
  subst hdf
  have hens : (ensureTrueFraud ⟨rows, none⟩).trueFraudCol =
      some (rows.map (fun r => astype_int (decide ((9:ℚ)/10 < r.fraud_probability)))) := rfl
  refine ⟨?_, ?_, ?_⟩
  · intro r hr
    rcases mem_generate h hr with ⟨i, _, hmk⟩
    rw [hmk]
    rfl
  · rw [hens]
    congr 1
    apply List.map_congr_left
    intro r _
    by_cases hcut : (9:ℚ)/10 < r.fraud_probability
    · simp [astype_int, hcut]
    · simp [astype_int, hcut]
  · intro z hz
    rw [hens] at hz
    simp only [Option.getD_some] at hz
    rcases List.mem_map.mp hz with ⟨r, _, hval⟩
    rcases Bool.dichotomy (decide ((9:ℚ)/10 < r.fraud_probability)) with hb | hb
    · rw [hb] at hval
      exact Or.inl hval.symm
    · rw [hb] at hval
      exact Or.inr hval.symm

/-- Witness for C5: the rule at `n = 1`, `seed = 0` and a one-row
frame lacking the column. -/
theorem true_fraud_fixed_cut_witness :
    (∀ r ∈ popW1, r.is_true_fraud = decide ((9:ℚ)/10 < r.fraud_probability)) ∧
    (ensureTrueFraud ⟨[txW], none⟩).trueFraudCol =
      some (([txW] : Population).map
        (fun r => if (9:ℚ)/10 < r.fraud_probability then 1 else 0)) ∧
    (∀ z ∈ ((ensureTrueFraud ⟨[txW], none⟩).trueFraudCol.getD []), z = 0 ∨ z = 1) :=
  true_fraud_fixed_cut 1 0 popW1 ⟨[txW], none⟩ rfl rfl

/-- C6: every transaction of a generated population has
`identity_match_score` and `fraud_probability` in `[0,1]`, positive
`amount` and `base_latency`, and the transaction ids are unique. -/
theorem generate_population_invariants (n seed : Nat) (pop : Population)
    (hn : 0 < n) (h : generate n seed = .ok pop) :
    (∀ r ∈ pop, 0 ≤ r.identity_match_score ∧ r.identity_match_score ≤ 1 ∧
      0 ≤ r.fraud_probability ∧ r.fraud_probability ≤ 1 ∧
      0 < r.amount ∧ 0 < r.base_latency) ∧
    (pop.map (fun r => r.transaction_id)).Nodup := by
  constructor
  · intro r hr
    rcases mem_generate h hr with ⟨i, _, hmk⟩
    rw [hmk]
    exact mkTransaction_bounds seed i
  · have hpop : pop = (List.range n).map (mkTransaction seed) := by
      rw [generate_eq_ok (n := n) seed hn.ne'] at h
      exact (Except.ok.inj h).symm
    have hid : pop.map (fun r => r.transaction_id) = List.range n := by
      rw [hpop, List.map_map]
      exact List.map_id' (List.range n)
    rw [hid]
    exact List.nodup_range n

/-- Witness for C6: the invariants at `n = 1`, `seed = 0`. -/
theorem generate_population_invariants_witness :
    (∀ r ∈ popW1, 0 ≤ r.identity_match_score ∧ r.identity_match_score ≤ 1 ∧
      0 ≤ r.fraud_probability ∧ r.fraud_probability ≤ 1 ∧
      0 < r.amount ∧ 0 < r.base_latency) ∧
    (popW1.map (fun r => r.transaction_id)).Nodup :=
  generate_population_invariants 1 0 popW1 (by norm_num) rfl

/-- C1: scanning is repeated application of the single-point
evaluators: for every index of a valid ascending grid, the curve row
produced by `scan_vop` (resp. `scan_fraud`) carries exactly the KPI
values `evaluate_vop` (resp. `evaluate_fraud`) returns at that
threshold. -/
theorem scan_rows_match_pointwise_evaluation
    (pop : Population) (vgrid fgrid : List ℚ)
    (hpop : pop ≠ []) (hv : vgrid ≠ []) (hf : fgrid ≠ [])
    (hvasc : vgrid.Pairwise (· < ·)) (hfasc : fgrid.Pairwise (· < ·))
    (hvdom : ∀ v ∈ vgrid, 0 ≤ v ∧ v ≤ 1) (hfdom : ∀ v ∈ fgrid, 0 ≤ v ∧ v ≤ 1) :
    ∃ vrows frows,
      scan_vop pop vgrid = .ok vrows ∧ scan_fraud pop fgrid = .ok frows ∧
      (∀ i, (hi : i < vgrid.length) → ∃ row kpi,
        vrows[i]? = some row ∧
        evaluate_vop pop vgrid[i] = .ok kpi ∧
        row.vop_threshold = vgrid[i] ∧
        row.conversion_rate = kpi.conversion_rate ∧
        row.latency_p95 = kpi.latency_p95) ∧
      (∀ i, (hi : i < fgrid.length) → ∃ row kpi,
        frows[i]? = some row ∧
        evaluate_fraud pop fgrid[i] = .ok kpi ∧
        row.fraud_threshold = fgrid[i] ∧
        row.manual_review_rate = kpi.manual_review_rate ∧
        row.risk_exposure_eur = kpi.risk_exposure_eur) := by
  refine ⟨_, _, scan_vop_eq_ok pop vgrid hpop hv hvdom,
    scan_fraud_eq_ok pop fgrid hf hfdom, ?_, ?_⟩
  · intro i hi
    have hmem : vgrid[i] ∈ vgrid := List.getElem_mem hi
    refine ⟨⟨vgrid[i], (vopKpi pop vgrid[i]).conversion_rate,
        (vopKpi pop vgrid[i]).latency_p95⟩, vopKpi pop vgrid[i], ?_,
      evaluate_vop_eq_ok pop vgrid[i] hpop (hvdom _ hmem).1 (hvdom _ hmem).2,
      rfl, rfl, rfl⟩
    rw [List.getElem?_map, List.getElem?_eq_getElem hi]
    rfl
  · intro i hi
    have hmem : fgrid[i] ∈ fgrid := List.getElem_mem hi
    refine ⟨⟨fgrid[i], (fraudKpi pop fgrid[i]).manual_review_rate,
        (fraudKpi pop fgrid[i]).risk_exposure_eur⟩, fraudKpi pop fgrid[i], ?_,
      evaluate_fraud_eq_ok pop fgrid[i] (hfdom _ hmem).1 (hfdom _ hmem).2,
      rfl, rfl, rfl⟩
    rw [List.getElem?_map, List.getElem?_eq_getElem hi]
    rfl

/-- Witness for C1: singleton grids at `1/2` on a one-row
population. -/
theorem scan_rows_match_pointwise_evaluation_witness :
    ∃ vrows frows,
      scan_vop [txW] [1/2] = .ok vrows ∧ scan_fraud [txW] [1/2] = .ok frows ∧
      (∀ i, (hi : i < ([(1:ℚ)/2]).length) → ∃ row kpi,
        vrows[i]? = some row ∧
        evaluate_vop [txW] ([(1:ℚ)/2])[i] = .ok kpi ∧
        row.vop_threshold = ([(1:ℚ)/2])[i] ∧
        row.conversion_rate = kpi.conversion_rate ∧
        row.latency_p95 = kpi.latency_p95) ∧
      (∀ i, (hi : i < ([(1:ℚ)/2]).length) → ∃ row kpi,
        frows[i]? = some row ∧
        evaluate_fraud [txW] ([(1:ℚ)/2])[i] = .ok kpi ∧
        row.fraud_threshold = ([(1:ℚ)/2])[i] ∧
        row.manual_review_rate = kpi.manual_review_rate ∧
        row.risk_exposure_eur = kpi.risk_exposure_eur) :=
  scan_rows_match_pointwise_evaluation [txW] [1/2] [1/2]
    (by simp) (by simp) (by simp) (by simp) (by simp)
    (by intro v hv; rw [List.mem_singleton] at hv; subst hv; norm_num)
    (by intro v hv; rw [List.mem_singleton] at hv; subst hv; norm_num)

/-- C8: on an ascending grid of distinct in-domain thresholds, each
scanner returns exactly one row per grid value, the threshold column
equals the grid, and it is in the same ascending order. -/
theorem scan_row_count_and_threshold_column
    (pop : Population) (vgrid fgrid : List ℚ)
    (hpop : pop ≠ []) (hv : vgrid ≠ []) (hf : fgrid ≠ [])
    (hvasc : vgrid.Pairwise (· < ·)) (hfasc : fgrid.Pairwise (· < ·))
    (hvdom : ∀ v ∈ vgrid, 0 ≤ v ∧ v ≤ 1) (hfdom : ∀ v ∈ fgrid, 0 ≤ v ∧ v ≤ 1) :
    ∃ vrows frows,
      scan_vop pop vgrid = .ok vrows ∧ scan_fraud pop fgrid = .ok frows ∧
      vrows.length = vgrid.length ∧ frows.length = fgrid.length ∧
      vrows.map (fun r => r.vop_threshold) = vgrid ∧
      frows.map (fun r => r.fraud_threshold) = fgrid ∧
      (vrows.map (fun r => r.vop_threshold)).Pairwise (· < ·) ∧
      (frows.map (fun r => r.fraud_threshold)).Pairwise (· < ·) := by
  have hvcol : ((vgrid.map (fun v =>
      (⟨v, (vopKpi pop v).conversion_rate, (vopKpi pop v).latency_p95⟩ : VopRow))).map
      (fun r => r.vop_threshold)) = vgrid := by
    rw [List.map_map]
    exact List.map_id' vgrid
  have hfcol : ((fgrid.map (fun v =>
      (⟨v, (fraudKpi pop v).manual_review_rate,
        (fraudKpi pop v).risk_exposure_eur⟩ : FraudRow))).map
      (fun r => r.fraud_threshold)) = fgrid := by
    rw [List.map_map]
    exact List.map_id' fgrid
  refine ⟨_, _, scan_vop_eq_ok pop vgrid hpop hv hvdom,
    scan_fraud_eq_ok pop fgrid hf hfdom, by simp, by simp, hvcol, hfcol, ?_, ?_⟩
  · rw [hvcol]
    exact hvasc
  · rw [hfcol]
    exact hfasc

/-- Witness for C8: the actual app grids on a one-row population; the
fraud grid has 7 values, so 7 rows come back. -/
theorem scan_row_count_and_threshold_column_witness :
    ∃ vrows frows,
      scan_vop [txW] vop_scan_grid = .ok vrows ∧
      scan_fraud [txW] fraud_scan_grid = .ok frows ∧
      vrows.length = vop_scan_grid.length ∧ frows.length = fraud_scan_grid.length ∧
      vrows.map (fun r => r.vop_threshold) = vop_scan_grid ∧
      frows.map (fun r => r.fraud_threshold) = fraud_scan_grid ∧
      (vrows.map (fun r => r.vop_threshold)).Pairwise (· < ·) ∧
      (frows.map (fun r => r.fraud_threshold)).Pairwise (· < ·) :=
  scan_row_count_and_threshold_column [txW] vop_scan_grid fraud_scan_grid
    (by simp) vop_scan_grid_props.1 fraud_scan_grid_props.1
    vop_scan_grid_props.2.1 fraud_scan_grid_props.2.1
    vop_scan_grid_props.2.2.1 fraud_scan_grid_props.2.2.1

/-- C9: the evaluators and scanners are pure over the population: a
session that reads one population with both single-point evaluators
and both scanners leaves the population unchanged, each result equals
the corresponding standalone call, and re-evaluating on the
population left after the session returns the same KPI values. -/
theorem core_operations_leave_population_unchanged
    (pop : Population) (tv tf : ℚ) (gv gf : List ℚ) :
    (readSession pop tv tf gv gf).2.2.2.2 = pop ∧
    (readSession pop tv tf gv gf).1 = evaluate_vop pop tv ∧
    (readSession pop tv tf gv gf).2.1 = evaluate_fraud pop tf ∧
    (readSession pop tv tf gv gf).2.2.1 = scan_vop pop gv ∧
    (readSession pop tv tf gv gf).2.2.2.1 = scan_fraud pop gf ∧
    evaluate_vop ((readSession pop tv tf gv gf).2.2.2.2) tv = evaluate_vop pop tv ∧
    evaluate_fraud ((readSession pop tv tf gv gf).2.2.2.2) tf = evaluate_fraud pop tf :=
  ⟨rfl, rfl, rfl, rfl, rfl, rfl, rfl⟩

/-- C10: both app scan grids are half-open at the top: the VoP grid
is the multiples of `0.05` from `0.50` up to but excluding `0.95`,
the fraud grid the multiples of `0.10` from `0.20` up to but
excluding `0.90`, and no curve row the scanners return on these grids
carries the maximum selectable slider threshold. -/
theorem app_scan_grids_half_open :
    vop_scan_grid = [1/2, 11/20, 3/5, 13/20, 7/10, 3/4, 4/5, 17/20, 9/10] ∧
    fraud_scan_grid = [1/5, 3/10, 2/5, 1/2, 3/5, 7/10, 4/5] ∧
    (19/20 : ℚ) ∉ vop_scan_grid ∧ (9/10 : ℚ) ∉ fraud_scan_grid ∧
    (∀ pop rows, scan_vop pop vop_scan_grid = .ok rows →
      ∀ r ∈ rows, r.vop_threshold ≠ 19/20) ∧
    (∀ pop rows, scan_fraud pop fraud_scan_grid = .ok rows →
      ∀ r ∈ rows, r.fraud_threshold ≠ 9/10) := by
  refine ⟨vop_scan_grid_eq, fraud_scan_grid_eq, ?_, ?_, ?_, ?_⟩
  · intro hmem
    exact vop_scan_grid_props.2.2.2 _ hmem rfl
  · intro hmem
    exact fraud_scan_grid_props.2.2.2 _ hmem rfl
  · intro pop rows hscan r hr
    have h1 : vop_scan_grid.isEmpty = false := by
      rw [vop_scan_grid_eq]
      rfl
    have h2 : vop_scan_grid.any (fun v => decide (v < 0) || decide (1 < v)) = false := by
      rw [List.any_eq_false]
      intro v hv
      simp only [Bool.or_eq_true, decide_eq_true_eq, not_or, not_lt]
      exact ⟨(vop_scan_grid_props.2.2.1 v hv).1, (vop_scan_grid_props.2.2.1 v hv).2⟩
    rw [scan_vop, h1, h2] at hscan
    simp only [Bool.false_eq_true, if_false] at hscan
    rcases mapM_ok_mem hscan r hr with ⟨v, hvmem, hfv⟩
    rcases except_map_ok hfv with ⟨k, _, hrow⟩
    have hthr : r.vop_threshold = v := by rw [← hrow]
    rw [hthr]
    exact vop_scan_grid_props.2.2.2 v hvmem
  · intro pop rows hscan r hr
    have h1 : fraud_scan_grid.isEmpty = false := by
      rw [fraud_scan_grid_eq]
      rfl
    have h2 : fraud_scan_grid.any (fun v => decide (v < 0) || decide (1 < v)) = false := by
      rw [List.any_eq_false]
      intro v hv
      simp only [Bool.or_eq_true, decide_eq_true_eq, not_or, not_lt]
      exact ⟨(fraud_scan_grid_props.2.2.1 v hv).1, (fraud_scan_grid_props.2.2.1 v hv).2⟩
    rw [scan_fraud, h1, h2] at hscan
    simp only [Bool.false_eq_true, if_false] at hscan
    rcases mapM_ok_mem hscan r hr with ⟨v, hvmem, hfv⟩
    rcases except_map_ok hfv with ⟨k, _, hrow⟩
    have hthr : r.fraud_threshold = v := by rw [← hrow]
    rw [hthr]
    exact fraud_scan_grid_props.2.2.2 v hvmem

/-- Witness for C10: concrete curve tables on a one-row population
contain no row at the maximum slider thresholds. -/
theorem app_scan_grids_half_open_witness :
    (∀ r ∈ vop_scan_grid.map (fun v =>
        (⟨v, (vopKpi [txW] v).conversion_rate, (vopKpi [txW] v).latency_p95⟩ : VopRow)),
      r.vop_threshold ≠ 19/20) ∧
    (∀ r ∈ fraud_scan_grid.map (fun v =>
        (⟨v, (fraudKpi [txW] v).manual_review_rate,
          (fraudKpi [txW] v).risk_exposure_eur⟩ : FraudRow)),
      r.fraud_threshold ≠ 9/10) :=
  ⟨app_scan_grids_half_open.2.2.2.2.1 [txW] _
      (scan_vop_eq_ok [txW] vop_scan_grid (by simp) vop_scan_grid_props.1
        vop_scan_grid_props.2.2.1),
   app_scan_grids_half_open.2.2.2.2.2 [txW] _
      (scan_fraud_eq_ok [txW] fraud_scan_grid fraud_scan_grid_props.1
        fraud_scan_grid_props.2.2.1)⟩

end IPSim
